import Mathlib

/-!
Verification of the AI-RESUME-FORMATTER normalization pipeline.

The TypeScript/JavaScript sources are shallowly embedded: JS strings are
lists of UTF-16 code units (`JStr := List Nat`), JS objects with dynamic
keys are association lists, fallible code returns `Except`.  String
builtins (`toLowerCase`, `split`, `replace` with the literal regexes the
repo uses, `trim`, `parseInt`, `new Date` on the date shapes the repo
feeds it) are modelled by executable functions defined below; each model
carries a doc comment naming the builtin and the restriction.
-/

namespace CvF

/-- A JS string, modelled as its list of UTF-16 code units.  All data in
this repository is ASCII, so a code unit is just the character code. -/
abbrev JStr := List Nat

/-- Code units of a Lean string literal. -/
def str (s : String) : JStr := s.data.map Char.toNat

/-- Model of `String.prototype.toLowerCase` on one code unit (the repo's
data is ASCII; only A-Z change). -/
def lowerCh (c : Nat) : Nat := if 65 ≤ c ∧ c ≤ 90 then c + 32 else c

/-- Model of `String.prototype.toUpperCase` on one code unit (ASCII). -/
def upperCh (c : Nat) : Nat := if 97 ≤ c ∧ c ≤ 122 then c - 32 else c

/-- `s.toLowerCase()`. -/
def toLowerJs (s : JStr) : JStr := s.map lowerCh

/-- ASCII digit 0-9 (regex `\d`). -/
def isDigit (c : Nat) : Bool := decide (48 ≤ c ∧ c ≤ 57)

/-- ASCII letter (one character of regex `[A-Za-z]`). -/
def isAlpha (c : Nat) : Bool := decide ((65 ≤ c ∧ c ≤ 90) ∨ (97 ≤ c ∧ c ≤ 122))

/-- Word character (regex `\w`): letter, digit or underscore. -/
def isWordCh (c : Nat) : Bool := isAlpha c || isDigit c || c == 95

/-- Whitespace (regex `\s`, and what `trim` strips), restricted to the
ASCII whitespace characters. -/
def isWs (c : Nat) : Bool := c == 32 || c == 9 || c == 10 || c == 13 || c == 11 || c == 12

/-- Model of `s.split(sep)` for a one-character separator: splits at every
occurrence, keeps empty pieces, `"" → [""]` (JS semantics). -/
def splitCh (c : Nat) : JStr → List JStr
  | [] => [[]]
  | x :: xs =>
    match splitCh c xs with
    | [] => [[x]]
    | w :: ws => if x = c then [] :: w :: ws else (x :: w) :: ws

/-- Model of `parts.join(sep)` for the one-character separator `sep`. -/
def joinCh (c : Nat) : List JStr → JStr
  | [] => []
  | [w] => w
  | w :: w2 :: ws => w ++ c :: joinCh c (w2 :: ws)

/-- `word.charAt(0).toUpperCase() + word.slice(1)`. -/
def capHead : JStr → JStr
  | [] => []
  | c :: cs => upperCh c :: cs

/-- `word.charAt(0).toUpperCase() + word.slice(1).toLowerCase()`. -/
def capWordLower : JStr → JStr
  | [] => []
  | c :: cs => upperCh c :: cs.map lowerCh

/-- `arr.map((x, index) => f(index, x))`, carrying the start index. -/
def mapIdxFrom (f : Nat → α → β) : Nat → List α → List β
  | _, [] => []
  | i, x :: xs => f i x :: mapIdxFrom f (i + 1) xs

/-- Case-insensitive "s starts with pat". -/
def startsWithCI (pat s : JStr) : Bool :=
  decide (pat.length ≤ s.length) && (toLowerJs (s.take pat.length) == toLowerJs pat)

/-- Worker for `replaceCI`; the fuel is an upper bound on the number of
steps (each step consumes at least one code unit of the input). -/
def replaceCIAux (pat repl : JStr) : Nat → JStr → JStr
  | 0, s => s
  | _ + 1, [] => []
  | fuel + 1, c :: cs =>
    if pat ≠ [] ∧ startsWithCI pat (c :: cs) then
      repl ++ replaceCIAux pat repl fuel (cs.drop (pat.length - 1))
    else
      c :: replaceCIAux pat repl fuel cs

/-- Model of `s.replace(new RegExp(pat, "gi"), repl)` for a pattern `pat`
that is a plain literal (no regex metacharacters): case-insensitive,
global, non-overlapping, scanning left to right over the original string. -/
def replaceCI (pat repl s : JStr) : JStr := replaceCIAux pat repl s.length s

/-- Worker for `replaceWordCI`; `prev` is the code unit just before the
current position in the original string (`none` at the start). -/
def replaceWordCIAux (pat repl : JStr) : Nat → Option Nat → JStr → JStr
  | 0, _, s => s
  | _ + 1, _, [] => []
  | fuel + 1, prev, c :: cs =>
    let boundaryLeft : Bool := match prev with | none => true | some p => !isWordCh p
    let after := cs.drop (pat.length - 1)
    let boundaryRight : Bool := match after with | [] => true | d :: _ => !isWordCh d
    if pat ≠ [] ∧ startsWithCI pat (c :: cs) ∧ boundaryLeft ∧ boundaryRight then
      repl ++ replaceWordCIAux pat repl fuel (some ((c :: cs).getD (pat.length - 1) 0)) after
    else
      c :: replaceWordCIAux pat repl fuel (some c) cs

/-- Model of `s.replace(new RegExp("\\b" + pat + "\\b", "gi"), repl)` for a
plain-word pattern: case-insensitive, global, word-boundary delimited. -/
def replaceWordCI (pat repl s : JStr) : JStr := replaceWordCIAux pat repl s.length none s

/-- Model of `s.trim()`. -/
def trimJs (s : JStr) : JStr := ((s.dropWhile isWs).reverse.dropWhile isWs).reverse

/-- Decimal digits of a natural number, as code units (how a JS template
literal renders the number). -/
def natToStr (n : Nat) : JStr := (Nat.toDigits 10 n).map Char.toNat

/-- Numeric value of a run of ASCII digits. -/
def digitsToNat (s : JStr) : Nat := s.foldl (fun a c => a * 10 + (c - 48)) 0

/-- Model of `parseInt` for the strings this repository passes it: value of
the leading run of ASCII digits, `none` (NaN) when there is none. -/
def jsParseInt (s : JStr) : Option Nat :=
  let ds := s.takeWhile isDigit
  if ds = [] then none else some (digitsToNat ds)

/-! ### The `months` tables of aiProcessor -/

/-- The `months` array of `normalizeDate` (aiProcessor lines 454-455). -/
def monthsAbbrev : List JStr :=
  [str "Jan", str "Feb", str "Mar", str "Apr", str "May", str "Jun",
   str "Jul", str "Aug", str "Sep", str "Oct", str "Nov", str "Dec"]

/-- `months[m]`; the sources only index with `m < 12`. -/
def monthAbbr (m : Nat) : JStr := monthsAbbrev.getD m []

/-- English month names, lowercase, for the `new Date` model. -/
def monthFullNames : List JStr :=
  [str "january", str "february", str "march", str "april", str "may",
   str "june", str "july", str "august", str "september", str "october",
   str "november", str "december"]

/-- Month index of a word (full English name or 3-letter abbreviation,
case-insensitive), for the `new Date` model. -/
def monthNameIndex (w : JStr) : Option Nat :=
  match monthFullNames.findIdx? (fun m => m == toLowerJs w) with
  | some i => some i
  | none => monthsAbbrev.findIdx? (fun m => toLowerJs m == toLowerJs w)

/-- Model of V8's `new Date(s)` returning `(monthIndex, year)` =
`(getMonth(), getFullYear())` in a UTC environment, restricted to the
shapes this repository feeds it: ISO `YYYY-MM` / `YYYY-MM-DD` with a
4-digit year, and `<month name> <4-digit year>` with a full or 3-letter
English month name, case-insensitive.  Every other string is Invalid Date
(`none`). -/
def jsNewDate (s : JStr) : Option (Nat × Nat) :=
  match splitCh 45 s with
  | [y, m] =>
    if y.length = 4 ∧ y.all isDigit ∧ m.length = 2 ∧ m.all isDigit ∧
        1 ≤ digitsToNat m ∧ digitsToNat m ≤ 12 then
      some (digitsToNat m - 1, digitsToNat y)
    else none
  | [y, m, d] =>
    if y.length = 4 ∧ y.all isDigit ∧ m.length = 2 ∧ m.all isDigit ∧
        1 ≤ digitsToNat m ∧ digitsToNat m ≤ 12 ∧ d.length = 2 ∧ d.all isDigit ∧
        1 ≤ digitsToNat d ∧ digitsToNat d ≤ 31 then
      some (digitsToNat m - 1, digitsToNat y)
    else none
  | [s0] =>
    match splitCh 32 s0 with
    | [w, y] =>
      if y.length = 4 ∧ y.all isDigit then
        (monthNameIndex w).map (fun i => (i, digitsToNat y))
      else none
    | _ => none
  | _ => none

/-! ### normalizeDate (aiProcessor lines 442-490) -/

/-- The fast-path test `/^[A-Za-z]{3} \d{4}$/` of `normalizeDate` line 446:
note it accepts the month in any letter case. -/
def isLooseMonYear (s : JStr) : Bool :=
  match s with
  | [a, b, c, sp, d1, d2, d3, d4] =>
    isAlpha a && isAlpha b && isAlpha c && (sp == 32) &&
    isDigit d1 && isDigit d2 && isDigit d3 && isDigit d4
  | _ => false

/-- The `dateStr.includes('-')` branch of `normalizeDate` (lines 458-466):
`const [year, month] = dateStr.split('-')`, then when `month && year` and
`parseInt(month) - 1` is a month index, produce `months[monthIndex] year`;
`none` when the branch falls through. -/
def dashResult (s : JStr) : Option JStr :=
  if s.contains 45 then
    match splitCh 45 s with
    | y :: m :: _ =>
      if m ≠ [] ∧ y ≠ [] then
        match jsParseInt m with
        | some v => if 1 ≤ v ∧ v ≤ 12 then some (monthAbbr (v - 1) ++ 32 :: y) else none
        | none => none
      else none
    | _ => none
  else none

/-- Worker for `findMonthYear`: leftmost match of `/(\w+)\s+(\d{4})/`.
A match can only begin at the start of a maximal `\w+` run (the characters
after the run do not depend on where inside the run the attempt starts),
so the scan advances run by run. -/
def findMYAux : Nat → JStr → Option (JStr × JStr)
  | 0, _ => none
  | _ + 1, [] => none
  | fuel + 1, c :: cs =>
    if isWordCh c then
      let run := (c :: cs).takeWhile isWordCh
      let rest := (c :: cs).dropWhile isWordCh
      let sp := rest.takeWhile isWs
      let rest2 := rest.dropWhile isWs
      if sp ≠ [] ∧ (rest2.take 4).length = 4 ∧ (rest2.take 4).all isDigit then
        some (run, rest2.take 4)
      else findMYAux fuel rest
    else findMYAux fuel cs

/-- Model of `dateStr.match(/(\w+)\s+(\d{4})/i)` (line 469): the two
captured groups of the leftmost match. -/
def findMonthYear (s : JStr) : Option (JStr × JStr) := findMYAux (s.length + 1) s

/-- The "Month Year" fallback of `normalizeDate` (lines 469-479): look the
captured word up in `months` by case-insensitive comparison (so only
3-letter abbreviations are found here); `none` when the branch falls
through. -/
def monthWordResult (s : JStr) : Option JStr :=
  match findMonthYear s with
  | some (mw, y4) =>
    match monthsAbbrev.findIdx? (fun m => toLowerJs m == toLowerJs mw) with
    | some mi => some (monthAbbr mi ++ 32 :: y4)
    | none => none
  | none => none

/-- `normalizeDate` (aiProcessor lines 442-490). -/
def normalizeDate (s : JStr) : JStr :=
  if s = [] then s
  else if isLooseMonYear s then s
  else
    match jsNewDate s with
    | some (m, y) => monthAbbr m ++ 32 :: natToStr y
    | none =>
      match dashResult s with
      | some r => r
      | none =>
        match monthWordResult s with
        | some r => r
        | none => s

/-! ### normalizeJobTitle, normalizeProfileText, normalizeBulletPoint -/

/-- `normalizeJobTitle` (aiProcessor lines 493-498): capitalize the first
letter of every space-separated word and lowercase the rest; no exception
list. -/
def normalizeJobTitle (t : JStr) : JStr := joinCh 32 ((splitCh 32 t).map capWordLower)

/-- `normalizeProfileText` (aiProcessor lines 501-508). -/
def normalizeProfileText (s : JStr) : JStr :=
  trimJs (replaceCI (str "Discrete ") (str "Discreet ")
    (replaceCI (str "Principle ") (str "Principal ")
      (replaceCI (str "I am ") []
        (replaceCI (str "I am responsible for") (str "Responsible for") s))))

/-- `normalizeBulletPoint` (aiProcessor lines 511-518); its body is the
same chain of replacements as `normalizeProfileText`. -/
def normalizeBulletPoint (s : JStr) : JStr :=
  trimJs (replaceCI (str "Discrete ") (str "Discreet ")
    (replaceCI (str "Principle ") (str "Principal ")
      (replaceCI (str "I am ") []
        (replaceCI (str "I am responsible for") (str "Responsible for") s))))

/-! ### The CvDraft schema (shared/schemas/cv.schema.ts) -/

structure Header where
  name : JStr
  title : JStr
  photoUrl : Option JStr
deriving DecidableEq, Repr

structure PersonalDetails where
  nationality : JStr
  languages : List JStr
  dob : JStr
  maritalStatus : JStr
deriving DecidableEq, Repr

structure ExperienceItem where
  role : JStr
  company : JStr
  startDate : JStr
  endDate : JStr
  bullets : List JStr
deriving DecidableEq, Repr

structure EducationItem where
  degree : JStr
  institution : JStr
  startDate : JStr
  endDate : JStr
  details : List JStr
deriving DecidableEq, Repr

structure Audit where
  rulesApplied : List JStr
  issues : List JStr
deriving DecidableEq, Repr

structure CvDraft where
  header : Header
  personalDetails : PersonalDetails
  profile : JStr
  experience : List ExperienceItem
  education : List EducationItem
  skills : List JStr
  interests : List JStr
  audit : Audit
deriving DecidableEq, Repr

/-- `z.string().min(1)`. -/
def validStr (s : JStr) : Bool := !s.isEmpty

/-- `ExperienceItemSchema`. -/
def validExpItem (e : ExperienceItem) : Bool :=
  validStr e.role && validStr e.company && validStr e.startDate && validStr e.endDate &&
  !e.bullets.isEmpty && e.bullets.all validStr

/-- `EducationItemSchema`. -/
def validEduItem (e : EducationItem) : Bool :=
  validStr e.degree && validStr e.institution && validStr e.startDate && validStr e.endDate &&
  !e.details.isEmpty && e.details.all validStr

/-- `CvDraftSchema.safeParse(d).success`: the Schema Validator, with the
`z.string().url()` test on the optional photo URL abstracted as the
parameter `urlOk`. -/
def validCvDraft (urlOk : JStr → Bool) (d : CvDraft) : Bool :=
  validStr d.header.name && validStr d.header.title &&
  (match d.header.photoUrl with | none => true | some u => urlOk u) &&
  validStr d.personalDetails.nationality &&
  !d.personalDetails.languages.isEmpty && d.personalDetails.languages.all validStr &&
  validStr d.personalDetails.dob && validStr d.personalDetails.maritalStatus &&
  validStr d.profile &&
  !d.experience.isEmpty && d.experience.all validExpItem &&
  !d.education.isEmpty && d.education.all validEduItem &&
  !d.skills.isEmpty && d.skills.all validStr &&
  !d.interests.isEmpty && d.interests.all validStr &&
  d.audit.rulesApplied.all validStr && d.audit.issues.all validStr

/-! ### normalizeCvData (aiProcessor lines 392-439) -/

/-- `normalizeCvData`: the programmatic EHS normalization pass applied
after the AI result.  Mirrors the source statement by statement; the
`if (normalized.header.title)` and `if (normalized.profile)` guards are JS
truthiness tests on strings, and arrays are always truthy. -/
def normalizeCvData (cv : CvDraft) : CvDraft :=
  let n1 := { cv with experience := cv.experience.map (fun (e : ExperienceItem) =>
    { e with startDate := normalizeDate e.startDate, endDate := normalizeDate e.endDate }) }
  let n2 := { n1 with education := n1.education.map (fun (e : EducationItem) =>
    { e with startDate := normalizeDate e.startDate, endDate := normalizeDate e.endDate }) }
  let n3 := if n2.header.title ≠ [] then
    { n2 with header := { n2.header with title := normalizeJobTitle n2.header.title } } else n2
  let n4 := if n3.profile ≠ [] then { n3 with profile := normalizeProfileText n3.profile } else n3
  let n5 := { n4 with experience := n4.experience.map (fun (e : ExperienceItem) =>
    { e with bullets := e.bullets.map normalizeBulletPoint }) }
  let n6 := { n5 with education := n5.education.map (fun (e : EducationItem) =>
    { e with details := e.details.map normalizeBulletPoint }) }
  n6

/-! ### Chunk merging (aiProcessor lines 219-299) -/

/-- The dedup key of `deduplicateAndMergeExperience` (line 265):
`company-role-startDate`. -/
def expKey (e : ExperienceItem) : JStr := e.company ++ 45 :: (e.role ++ 45 :: e.startDate)

/-- The dedup key of `deduplicateAndMergeEducation` (line 286):
`institution-degree-startDate`. -/
def eduKey (e : EducationItem) : JStr := e.institution ++ 45 :: (e.degree ++ 45 :: e.startDate)

/-- The `seen`-set loop shared by both dedup functions: keep an entry
unless its key was already seen. -/
def dedupBy (key : α → JStr) : List JStr → List α → List α
  | _, [] => []
  | seen, x :: xs =>
    if seen.contains (key x) then dedupBy key seen xs
    else x :: dedupBy key (key x :: seen) xs

/-- `new Date(startDate).getTime()` as used by the sort comparator, on the
month scale: months since year 0 for the dates the repo sorts (its
`jsNewDate` model), with an unparseable date treated as epoch 0. -/
def dateVal (s : JStr) : Nat := ((jsNewDate s).map (fun my => my.2 * 12 + my.1)).getD 0

/-- The comparator `(a, b) => dateB.getTime() - dateA.getTime()` as the
reverse-chronological order relation on experience entries. -/
def expLe (a b : ExperienceItem) : Prop := dateVal b.startDate ≤ dateVal a.startDate

instance : DecidableRel expLe := fun _ _ => Nat.decLe _ _

instance : IsTotal ExperienceItem expLe := ⟨fun _ _ => Nat.le_total _ _⟩

instance : IsTrans ExperienceItem expLe := ⟨fun _ _ _ h1 h2 => Nat.le_trans h2 h1⟩

/-- Reverse-chronological order relation on education entries. -/
def eduLe (a b : EducationItem) : Prop := dateVal b.startDate ≤ dateVal a.startDate

instance : DecidableRel eduLe := fun _ _ => Nat.decLe _ _

instance : IsTotal EducationItem eduLe := ⟨fun _ _ => Nat.le_total _ _⟩

instance : IsTrans EducationItem eduLe := ⟨fun _ _ _ h1 h2 => Nat.le_trans h2 h1⟩

/-- `deduplicateAndMergeExperience` (lines 260-278): first-seen-wins dedup
by `expKey`, then `unique.sort(comparator)`.  `Array.prototype.sort` is
stable (ES2019), modelled by a stable insertion sort; faithful whenever
the comparator is consistent, i.e. for parseable dates. -/
def deduplicateAndMergeExperience (xs : List ExperienceItem) : List ExperienceItem :=
  List.insertionSort expLe (dedupBy expKey [] xs)

/-- `deduplicateAndMergeEducation` (lines 281-299). -/
def deduplicateAndMergeEducation (xs : List EducationItem) : List EducationItem :=
  List.insertionSort eduLe (dedupBy eduKey [] xs)

/-- `Array.from(new Set(xs))`: drop later duplicates, keep first-seen
order. -/
def jsSetDedup : List JStr → List JStr := dedupBy id []

/-- `mergeChunkResults` (lines 219-257): throws on an empty list, returns
a single chunk unchanged, otherwise merges into a copy of the first
chunk. -/
def mergeChunkResults : List CvDraft → Except JStr CvDraft
  | [] => .error (str "No chunks were processed successfully")
  | [x] => .ok x
  | base :: next :: rest =>
    let all := base :: next :: rest
    .ok { base with
      experience := deduplicateAndMergeExperience ((all.map (·.experience)).flatten),
      education := deduplicateAndMergeEducation ((all.map (·.education)).flatten),
      skills := jsSetDedup ((all.map (·.skills)).flatten),
      interests := jsSetDedup ((all.map (·.interests)).flatten),
      audit := { rulesApplied := jsSetDedup ((all.map (·.audit.rulesApplied)).flatten),
                 issues := jsSetDedup ((all.map (·.audit.issues)).flatten) } }

/-! ### processSingleChunk (aiProcessor lines 166-185) -/

/-- The provider loop of `processSingleChunk`, with `attempt` abstracting
`processWithProvider` (an external LLM call followed by schema
validation) and `lastErr` the `lastError` variable.  The final message is
`All AI providers failed. Last error: ${lastError?.message}` (interpolating
`undefined` when no provider was tried). -/
def processSingleChunkGo (attempt : JStr → Except JStr CvDraft) :
    List JStr → Option JStr → Except JStr CvDraft
  | [], lastErr =>
    .error (str "All AI providers failed. Last error: " ++ lastErr.getD (str "undefined"))
  | p :: ps, _ =>
    match attempt p with
    | .ok r => .ok r
    | .error e => processSingleChunkGo attempt ps (some e)

/-- `processSingleChunk` (lines 166-185). -/
def processSingleChunk (attempt : JStr → Except JStr CvDraft) (providers : List JStr) :
    Except JStr CvDraft :=
  processSingleChunkGo attempt providers none

/-!
### EHSFormattingService (unnamed/part_005)

This service works on a looser CV shape than the zod schema: fields may be
absent (`Option`), `personalDetails` is a plain JS object iterated by key
(an association list here), and experience/education entries carry
`position`/`company`/`description`/`achievements` fields.
-/

/-- A JS object with string values, as an association list (insertion
order, unique keys). -/
abbrev JsObj := List (JStr × JStr)

/-- `o[k]` (`undefined` as `none`). -/
def objGet (o : JsObj) (k : JStr) : Option JStr :=
  (o.find? (fun kv => kv.1 == k)).map (·.2)

/-- `o[k] = v`: update in place when the key exists, else append. -/
def objSet (o : JsObj) (k v : JStr) : JsObj :=
  if o.any (fun kv => kv.1 == k) then
    o.map (fun kv => if kv.1 == k then (k, v) else kv)
  else o ++ [(k, v)]

/-- `this.inappropriateFields` (part_005 lines 50-55).  Note the entries
`dateOfBirth`, `birthDate`, `maritalStatus` and `politicalAffiliation`,
`politicalParty` are stored in camelCase. -/
def inappropriateFields : List JStr :=
  [str "age", str "dob", str "dateOfBirth", str "birthDate", str "birthday",
   str "dependants", str "children", str "maritalStatus", str "marriage",
   str "religion", str "ethnicity", str "nationality", str "race",
   str "politicalAffiliation", str "politicalParty"]

/-- `this.redundantPhrases` (lines 38-48). -/
def redundantPhrases : List JStr :=
  [str "I am responsible for", str "I am in charge of", str "I am accountable for",
   str "My role involves", str "My responsibilities include", str "I have experience in",
   str "I am experienced in", str "I am skilled in", str "I am proficient in"]

/-- `this.commonMistakes` (lines 27-36), as (wrong, correct) pairs. -/
def commonMistakes : List (JStr × JStr) :=
  [(str "Principle", str "Principal"), (str "Discrete", str "Discreet"),
   (str "Affect", str "Effect"), (str "Compliment", str "Complement"),
   (str "Stationary", str "Stationery"), (str "Loose", str "Lose"),
   (str "Advice", str "Advise"), (str "Practice", str "Practise")]

/-- The preposition/article list of `capitalizeJobTitle` (line 296). -/
def prepositions : List JStr :=
  [str "of", str "in", str "at", str "on", str "by", str "for",
   str "to", str "with", str "a", str "an", str "the"]

/-- The per-word transform of `capitalizeJobTitle` (lines 291-302); the
word is already lowercase when this runs. -/
def cjtWord (i : Nat) (w : JStr) : JStr :=
  if i = 0 then capHead w
  else if prepositions.contains w then w
  else capHead w

/-- `capitalizeJobTitle` (part_005 lines 287-305): lowercase the whole
title, split on spaces, capitalize each word except non-leading
prepositions/articles, rejoin. -/
def capitalizeJobTitle (t : JStr) : JStr :=
  if t = [] then t
  else joinCh 32 (mapIdxFrom cjtWord 0 (splitCh 32 (toLowerJs t)))

/-- `this.monthMap` of `formatDateToEHS` (lines 266-273): lowercase keys;
note there is no short `may` entry (the full name covers it). -/
def monthMapEHS : JsObj :=
  [(str "january", str "Jan"), (str "february", str "Feb"), (str "march", str "Mar"),
   (str "april", str "Apr"), (str "may", str "May"), (str "june", str "Jun"),
   (str "july", str "Jul"), (str "august", str "Aug"), (str "september", str "Sep"),
   (str "october", str "Oct"), (str "november", str "Nov"), (str "december", str "Dec"),
   (str "jan", str "Jan"), (str "feb", str "Feb"), (str "mar", str "Mar"),
   (str "apr", str "Apr"), (str "jun", str "Jun"), (str "jul", str "Jul"),
   (str "aug", str "Aug"), (str "sep", str "Sep"), (str "oct", str "Oct"),
   (str "nov", str "Nov"), (str "dec", str "Dec")]

/-- Largest backtracking split of a `\w+` run for `/(\w+)\s*(\d{4})/`:
the greatest `t ≥ 1` such that the four code units after position `t`
are digits (tried from `run.length - 4` downward). -/
def largestDigitSplit : Nat → JStr → Option (JStr × JStr)
  | 0, _ => none
  | t + 1, run =>
    let y := ((run.drop (t + 1)).take 4)
    if y.length = 4 ∧ y.all isDigit then some (run.take (t + 1), y)
    else largestDigitSplit t run

/-- Worker for `findWordYear0`: leftmost match of `/(\w+)\s*(\d{4})/`
(zero-or-more whitespace, unlike `normalizeDate`'s `\s+`).  A match can
only begin at the start of a maximal `\w+` run; greediness tries the
whole run followed by whitespace and four digits first, then splits the
run itself at the latest possible point. -/
def findWY0Aux : Nat → JStr → Option (JStr × JStr)
  | 0, _ => none
  | _ + 1, [] => none
  | fuel + 1, c :: cs =>
    if isWordCh c then
      let run := (c :: cs).takeWhile isWordCh
      let rest := (c :: cs).dropWhile isWordCh
      let restWs := rest.dropWhile isWs
      if (restWs.take 4).length = 4 ∧ (restWs.take 4).all isDigit then
        some (run, restWs.take 4)
      else
        match largestDigitSplit (run.length - 4) run with
        | some r => some r
        | none => findWY0Aux fuel rest
    else findWY0Aux fuel cs

/-- Model of `dateString.match(/(\w+)\s*(\d{4})/i)` (part_005 line 276). -/
def findWordYear0 (s : JStr) : Option (JStr × JStr) := findWY0Aux (s.length + 1) s

/-- `formatDateToEHS` (part_005 lines 263-284): look the matched word up
in the month map (`monthMap[...] || match[1]` keeps the raw word when
unknown) and emit `month year`; no match returns the input unchanged. -/
def formatDateToEHS (s : JStr) : JStr :=
  if s = [] then s
  else
    match findWordYear0 s with
    | some (mw, y) =>
      (match objGet monthMapEHS (toLowerJs mw) with
       | some m => m
       | none => mw) ++ 32 :: y
    | none => s

/-- `convertToProfessionalTone` (lines 412-431): strip the pronouns `I`,
`my`, `me` (word-boundary, case-insensitive), uppercase a leading
lowercase letter, close with a period when no closing punctuation, trim. -/
def convertToProfessionalTone (s : JStr) : JStr :=
  if s = [] then s
  else
    let p1 := replaceWordCI (str "I") [] s
    let p2 := replaceWordCI (str "my") [] p1
    let p3 := replaceWordCI (str "me") [] p2
    let p4 := match p3 with
      | c :: cs => if 97 ≤ c ∧ c ≤ 122 then upperCh c :: cs else c :: cs
      | [] => []
    let p5 := match p4.getLast? with
      | some c => if c = 46 ∨ c = 33 ∨ c = 63 then p4 else p4 ++ [46]
      | none => p4 ++ [46]
    trimJs p5

/-- `cleanupProfile` (lines 110-131) on one string: strip the redundant
phrases, fix the common mistakes (word-boundary), convert to professional
tone, trim. -/
def cleanupProfileStr (s : JStr) : JStr :=
  if s = [] then s
  else
    let c1 := redundantPhrases.foldl (fun acc ph => replaceCI ph [] acc) s
    let c2 := commonMistakes.foldl (fun acc wc => replaceWordCI wc.1 wc.2 acc) c1
    trimJs (convertToProfessionalTone c2)

/-- `cleanupProfile` on an optional field (`if (!profile) return profile`). -/
def cleanupProfileOpt (p : Option JStr) : Option JStr := p.map cleanupProfileStr

/-- `cleanupPersonalDetails` (part_005 lines 83-107): drop every key whose
lowercased name is in the denylist, then capitalize `jobTitle` and format
`startDate`/`endDate` when present and non-empty. -/
def cleanupPersonalDetails (pd : JsObj) : JsObj :=
  let c1 := pd.filter (fun kv => !(inappropriateFields.contains (toLowerJs kv.1)))
  let c2 := match objGet c1 (str "jobTitle") with
    | some v => if v ≠ [] then objSet c1 (str "jobTitle") (capitalizeJobTitle v) else c1
    | none => c1
  let c3 := match objGet c2 (str "startDate") with
    | some v => if v ≠ [] then objSet c2 (str "startDate") (formatDateToEHS v) else c2
    | none => c2
  let c4 := match objGet c3 (str "endDate") with
    | some v => if v ≠ [] then objSet c3 (str "endDate") (formatDateToEHS v) else c3
    | none => c3
  c4

/-- `specialCases` of `capitalizeCompanyName` (lines 312-324). -/
def specialCompanies : JsObj :=
  [(str "ibm", str "IBM"), (str "microsoft", str "Microsoft"), (str "google", str "Google"),
   (str "amazon", str "Amazon"), (str "apple", str "Apple"), (str "facebook", str "Facebook"),
   (str "netflix", str "Netflix"), (str "deloitte", str "Deloitte"), (str "pwc", str "PwC"),
   (str "ey", str "EY"), (str "kpmg", str "KPMG")]

/-- `capitalizeCompanyName` (lines 308-335). -/
def capitalizeCompanyName (c : JStr) : JStr :=
  if c = [] then c
  else
    match objGet specialCompanies (toLowerJs c) with
    | some v => v
    | none => joinCh 32 ((splitCh 32 c).map capWordLower)

/-- `degreeMap` of `capitalizeDegree` (lines 341-350). -/
def degreeMap : JsObj :=
  [(str "b.e", str "B.E."), (str "b.tech", str "B.Tech"), (str "bachelor", str "Bachelor"),
   (str "m.e", str "M.E."), (str "m.tech", str "M.Tech"), (str "master", str "Master"),
   (str "phd", str "PhD"), (str "doctorate", str "Doctorate")]

/-- `capitalizeDegree` (lines 338-358). -/
def capitalizeDegree (d : JStr) : JStr :=
  if d = [] then d
  else
    match objGet degreeMap (toLowerJs d) with
    | some v => v
    | none => d

/-- `capitalizeInstitutionName` (lines 361-367). -/
def capitalizeInstitutionName (i : JStr) : JStr :=
  if i = [] then i
  else joinCh 32 ((splitCh 32 i).map capWordLower)

/-- `techMap` of `capitalizeSkill` (lines 374-392). -/
def techMap : JsObj :=
  [(str "javascript", str "JavaScript"), (str "node.js", str "Node.js"),
   (str "react", str "React"), (str "mongodb", str "MongoDB"),
   (str "postgresql", str "PostgreSQL"), (str "aws", str "AWS"),
   (str "docker", str "Docker"), (str "git", str "Git"), (str "html", str "HTML"),
   (str "css", str "CSS"), (str "api", str "API"), (str "rest", str "REST"),
   (str "websocket", str "WebSocket"), (str "ldap", str "LDAP"), (str "nlp", str "NLP"),
   (str "ai", str "AI"), (str "machine learning", str "Machine Learning")]

/-- `capitalizeSkill` (lines 370-400): technology-name lookup, else only
the first letter is uppercased (the rest keeps its case). -/
def capitalizeSkill (s : JStr) : JStr :=
  if s = [] then s
  else
    match objGet techMap (toLowerJs s) with
    | some v => v
    | none => capHead s

/-- `capitalizeInterest` (lines 403-409). -/
def capitalizeInterest (i : JStr) : JStr :=
  if i = [] then i
  else joinCh 32 ((splitCh 32 i).map capWordLower)

/-- `cleanupSkills` (lines 201-217): strip redundant phrases, capitalize,
trim, and drop entries that became empty. -/
def cleanupSkills (skills : List JStr) : List JStr :=
  (skills.map (fun sk =>
    trimJs (capitalizeSkill (redundantPhrases.foldl (fun acc ph => replaceCI ph [] acc) sk)))
  ).filter (fun sk => sk.length > 0)

/-- `cleanupInterests` (lines 220-236). -/
def cleanupInterests (ints : List JStr) : List JStr :=
  (ints.map (fun it =>
    trimJs (capitalizeInterest (redundantPhrases.foldl (fun acc ph => replaceCI ph [] acc) it)))
  ).filter (fun it => it.length > 0)

/-- One experience entry as the EHS service sees it. -/
structure EHSExp where
  startDate : Option JStr
  endDate : Option JStr
  company : Option JStr
  position : Option JStr
  description : Option (List JStr)
  achievements : Option (List JStr)
deriving DecidableEq, Repr

/-- One education entry as the EHS service sees it. -/
structure EHSEdu where
  startDate : Option JStr
  endDate : Option JStr
  degree : Option JStr
  institution : Option JStr
deriving DecidableEq, Repr

/-- The `typography` object, restricted to the one field the compliance
check reads (`font`). -/
structure EHSTypography where
  font : JStr
deriving DecidableEq, Repr

/-- The CV record the EHS service manipulates. -/
structure EHSCv where
  typography : Option EHSTypography
  personalDetails : JsObj
  profile : Option JStr
  experience : Option (List EHSExp)
  education : Option (List EHSEdu)
  keySkills : Option (List JStr)
  interests : Option (List JStr)
deriving DecidableEq, Repr

/-- `cleanupExperience` (lines 134-171); `if (!Array.isArray(...))` keeps a
missing field as is. -/
def cleanupExperience (exps : Option (List EHSExp)) : Option (List EHSExp) :=
  exps.map (fun l => l.map (fun e =>
    let e1 := { e with
      startDate := e.startDate.map (fun v => if v ≠ [] then formatDateToEHS v else v),
      endDate := e.endDate.map (fun v => if v ≠ [] then formatDateToEHS v else v) }
    let e2 := { e1 with
      description := e1.description.map (fun (ds : List JStr) => ds.map cleanupProfileStr),
      achievements := e1.achievements.map (fun (as2 : List JStr) => as2.map cleanupProfileStr) }
    { e2 with
      company := e2.company.map (fun v => if v ≠ [] then capitalizeCompanyName v else v),
      position := e2.position.map (fun v => if v ≠ [] then capitalizeJobTitle v else v) }))

/-- `cleanupEducation` (lines 174-198). -/
def cleanupEducation (edus : Option (List EHSEdu)) : Option (List EHSEdu) :=
  edus.map (fun l => l.map (fun e =>
    { e with
      startDate := e.startDate.map (fun v => if v ≠ [] then formatDateToEHS v else v),
      endDate := e.endDate.map (fun v => if v ≠ [] then formatDateToEHS v else v),
      degree := e.degree.map (fun v => if v ≠ [] then capitalizeDegree v else v),
      institution := e.institution.map (fun v => if v ≠ [] then capitalizeInstitutionName v else v) }))

/-- JS runtime errors this model distinguishes. -/
inductive JsError where
  | typeError
deriving DecidableEq, Repr

/-- `applyEHSFormatting` (part_005 lines 59-80).  `formattedCV` is declared
`const` on line 60, yet line 74 reassigns it
(`formattedCV = this.applyProfessionalFormatting(formattedCV)`); an
assignment to a const binding throws `TypeError: Assignment to constant
variable.` in both sloppy and strict mode.  The cleanup steps of lines
63-71 run first and are total on this model, so execution always reaches
line 74 and every call throws. -/
def applyEHSFormatting (cv : EHSCv) : Except JsError EHSCv :=
  let f0 := { cv with typography := some { font := str "Palatino Linotype" } }
  let f1 := { f0 with personalDetails := cleanupPersonalDetails f0.personalDetails }
  let f2 := { f1 with profile := cleanupProfileOpt f1.profile }
  let f3 := { f2 with experience := cleanupExperience f2.experience }
  let f4 := { f3 with education := cleanupEducation f3.education }
  let f5 := { f4 with keySkills := f4.keySkills.map cleanupSkills }
  let _f6 := { f5 with interests := f5.interests.map cleanupInterests }
  Except.error JsError.typeError

/-- A compliance report (`validateEHSCompliance`'s return shape). -/
structure ComplianceReport where
  compliant : Bool
  issues : List JStr
  score : Int
deriving DecidableEq, Repr

/-- The test `/^[A-Z][a-z]{2}\s\d{4}$/` of `validateEHSCompliance`
(line 468): capitalized 3-letter month, whitespace, 4 digits. -/
def dateRegexEHS (s : JStr) : Bool :=
  match s with
  | [a, b, c, sp, d1, d2, d3, d4] =>
    decide (65 ≤ a ∧ a ≤ 90) && decide (97 ≤ b ∧ b ≤ 122) && decide (97 ≤ c ∧ c ≤ 122) &&
    isWs sp && isDigit d1 && isDigit d2 && isDigit d3 && isDigit d4
  | _ => false

/-- Single-quote code unit, for the issue message below. -/
def sq : Nat := 39

/-- The message `Date format should be 'Jan 2020' not '${exp.startDate}'`. -/
def dateIssueMsg (sd : JStr) : JStr :=
  str "Date format should be " ++ sq :: (str "Jan 2020" ++ sq :: (str " not " ++ sq :: (sd ++ [sq])))

/-- `validateEHSCompliance` (part_005 lines 459-498): collect the detected
issues in source order, then report `compliant` iff none, and
`score = Math.max(0, 100 - issues.length * 10)`. -/
def validateEHSCompliance (cv : EHSCv) : ComplianceReport :=
  let i1 : List JStr :=
    if (match cv.typography with
        | some t => t.font == str "Palatino Linotype"
        | none => false) then []
    else [str "Font should be Palatino Linotype"]
  let i2 : List JStr :=
    match cv.experience with
    | none => []
    | some exps => exps.foldl (fun acc e =>
        match e.startDate with
        | some sd => if sd ≠ [] ∧ ¬ dateRegexEHS sd then acc ++ [dateIssueMsg sd] else acc
        | none => acc) []
  let i3 : List JStr :=
    (cv.personalDetails.map (·.1)).foldl (fun acc k =>
      if inappropriateFields.contains (toLowerJs k) then
        acc ++ [str "Remove inappropriate field: " ++ k]
      else acc) []
  let i4 : List JStr :=
    match objGet cv.personalDetails (str "jobTitle") with
    | some t => if t ≠ [] ∧ t ≠ capitalizeJobTitle t then
        [str "Job title should be properly capitalized"] else []
    | none => []
  let issues := i1 ++ i2 ++ i3 ++ i4
  { compliant := issues.isEmpty
    issues := issues
    score := max 0 (100 - (issues.length : Int) * 10) }

/-!
### Spec-side definitions

These follow the wording of the specification (for refinement claims),
not the code.
-/

/-- One word of the spec's title-capitalization rule: a word of the fixed
preposition/article list stays fully lowercase unless it is the first
word; every other word (and always the first) has its first letter
capitalized and the remaining letters lowercased. -/
def specTitleWord (i : Nat) (w : JStr) : JStr :=
  if i ≠ 0 ∧ prepositions.contains (toLowerJs w) then toLowerJs w
  else capWordLower w

/-- The spec's title capitalization: transform every space-separated word
of the title by its position and rejoin. -/
def specTitleCase (t : JStr) : JStr :=
  joinCh 32 (mapIdxFrom specTitleWord 0 (splitCh 32 t))

/-- The spec's first-occurrence-wins deduplication: keep the head, drop
every later entry whose composite key collides with it, recurse. -/
def firstOccBy (key : α → JStr) : List α → List α
  | [] => []
  | x :: xs => x :: firstOccBy key (xs.filter (fun y => !(key y == key x)))
termination_by l => l.length
decreasing_by simp only [List.length_cons]; exact Nat.lt_succ_of_le (List.length_filter_le _ _)

/-!
### Helper lemmas
-/

lemma upperCh_lowerCh (c : Nat) : upperCh (lowerCh c) = upperCh c := by
  unfold upperCh lowerCh
  split_ifs <;> omega

lemma lowerCh_eq_space (c : Nat) : lowerCh c = 32 ↔ c = 32 := by
  unfold lowerCh
  split_ifs <;> omega

lemma splitCh_ne_nil (c : Nat) (s : JStr) : splitCh c s ≠ [] := by
  cases s with
  | nil => simp [splitCh]
  | cons x xs =>
    simp only [splitCh]
    rcases splitCh c xs with _ | ⟨w, ws⟩
    · simp
    · by_cases hx : x = c <;> simp [hx]

lemma splitCh_toLower (t : JStr) :
    splitCh 32 (toLowerJs t) = (splitCh 32 t).map toLowerJs := by
  induction t with
  | nil => simp [splitCh, toLowerJs]
  | cons x xs ih =>
    obtain ⟨w, ws, hws⟩ := List.exists_cons_of_ne_nil (splitCh_ne_nil 32 xs)
    simp only [toLowerJs, List.map_cons, splitCh] at ih ⊢
    rw [ih, hws]
    simp only [List.map_cons]
    by_cases hx : x = 32
    · simp [hx, lowerCh_eq_space, toLowerJs]
    · have hlx : ¬ lowerCh x = 32 := fun h => hx ((lowerCh_eq_space x).mp h)
      simp [hx, hlx, toLowerJs]

lemma capHead_toLower (w : JStr) : capHead (toLowerJs w) = capWordLower w := by
  cases w with
  | nil => simp [toLowerJs, capHead, capWordLower]
  | cons c cs => simp [toLowerJs, capHead, capWordLower, upperCh_lowerCh]

lemma cjtWord_toLower (i : Nat) (w : JStr) : cjtWord i (toLowerJs w) = specTitleWord i w := by
  unfold cjtWord specTitleWord
  by_cases hi : i = 0
  · simp [hi, capHead_toLower]
  · by_cases hc : toLowerJs w ∈ prepositions
    · simp [hi, hc]
    · simp [hi, hc, capHead_toLower]

lemma mapIdxFrom_toLower (ws : List JStr) :
    ∀ i, mapIdxFrom cjtWord i (ws.map toLowerJs) = mapIdxFrom specTitleWord i ws := by
  induction ws with
  | nil => intro i; simp [mapIdxFrom]
  | cons w ws ih => intro i; simp [mapIdxFrom, cjtWord_toLower, ih]

/-- C3: for every title string, `capitalizeJobTitle` implements exactly the
spec's capitalization rule — first letter of every word capitalized and
the rest lowercased, except that a non-leading preposition/article of the
fixed list stays fully lowercase, the first word always being capitalized;
in particular "head of engineering" becomes "Head of Engineering". -/
theorem c3_title_capitalization :
    (∀ t : JStr, capitalizeJobTitle t = specTitleCase t) ∧
    capitalizeJobTitle (str "head of engineering") = str "Head of Engineering" ∧
    capitalizeJobTitle (str "senior software engineer") = str "Senior Software Engineer" := by
  refine ⟨fun t => ?_, by decide, by decide⟩
  by_cases ht : t = []
  · subst ht; decide
  · unfold capitalizeJobTitle specTitleCase
    rw [if_neg ht, splitCh_toLower, mapIdxFrom_toLower]

/-!
### More helper lemmas: normalizeCvData in closed form, nonemptiness
-/

/-- `normalizeCvData` written as one record update (the two experience
passes and the two education passes fused, the truthiness guards pushed
into the fields). -/
lemma normalizeCvData_eq (cv : CvDraft) :
    normalizeCvData cv = { cv with
      header := { cv.header with
        title := if cv.header.title = [] then cv.header.title
                 else normalizeJobTitle cv.header.title },
      profile := if cv.profile = [] then cv.profile else normalizeProfileText cv.profile,
      experience := cv.experience.map (fun e =>
        { e with startDate := normalizeDate e.startDate, endDate := normalizeDate e.endDate,
                 bullets := e.bullets.map normalizeBulletPoint }),
      education := cv.education.map (fun e =>
        { e with startDate := normalizeDate e.startDate, endDate := normalizeDate e.endDate,
                 details := e.details.map normalizeBulletPoint }) } := by
  cases cv with
  | mk hd pd pr ex ed sk it au =>
    cases hd with
    | mk nm ti ph =>
      unfold normalizeCvData
      by_cases ht : ti = [] <;> by_cases hp : pr = [] <;>
        simp [ht, hp, List.map_map, Function.comp_def]

lemma monthsAbbrev_getD_ne_nil (m : Nat) (d : JStr) (hd : d ≠ []) :
    monthsAbbrev.getD m d ≠ [] := by
  unfold monthsAbbrev
  rcases m with _ | _ | _ | _ | _ | _ | _ | _ | _ | _ | _ | _ | m <;>
    simp [List.getD, hd] <;> decide

lemma dashResult_ne_nil {s r : JStr} (h : dashResult s = some r) : r ≠ [] := by
  unfold dashResult at h
  split at h
  · split at h
    · split at h
      · split at h
        · split at h
          · obtain rfl := Option.some.inj h
            simp [monthAbbr]
          · exact absurd h (by simp)
        · exact absurd h (by simp)
      · exact absurd h (by simp)
    · exact absurd h (by simp)
  · exact absurd h (by simp)

lemma monthWordResult_ne_nil {s r : JStr} (h : monthWordResult s = some r) : r ≠ [] := by
  unfold monthWordResult at h
  split at h
  · split at h
    · obtain rfl := Option.some.inj h
      simp [monthAbbr]
    · exact absurd h (by simp)
  · exact absurd h (by simp)

lemma normalizeDate_ne_nil {s : JStr} (h : s ≠ []) : normalizeDate s ≠ [] := by
  unfold normalizeDate
  rw [if_neg h]
  split
  · exact h
  · split
    · simp [monthAbbr]
    · split
      · next r hr => exact dashResult_ne_nil hr
      · split
        · next r hr => exact monthWordResult_ne_nil hr
        · exact h

lemma normalizeJobTitle_ne_nil {t : JStr} (h : t ≠ []) : normalizeJobTitle t ≠ [] := by
  obtain ⟨x, xs, rfl⟩ := List.exists_cons_of_ne_nil h
  unfold normalizeJobTitle
  obtain ⟨w, ws, hws⟩ := List.exists_cons_of_ne_nil (splitCh_ne_nil 32 xs)
  simp only [splitCh, hws]
  by_cases hx : x = 32
  · simp [hx, joinCh]
  · rw [if_neg hx]
    simp only [List.map_cons]
    cases ws with
    | nil => simp [joinCh, capWordLower]
    | cons w2 ws2 => simp [joinCh, capWordLower]

/-!
### Sample data used by witnesses and counterexamples
-/

/-- A fully normalized experience entry. -/
def sampleExp : ExperienceItem :=
  { role := str "Lead Developer", company := str "Acme", startDate := str "Jun 2019",
    endDate := str "Sep 2021", bullets := [str "Led delivery."] }

/-- A fully normalized education entry. -/
def sampleEdu : EducationItem :=
  { degree := str "Master", institution := str "Lyon University", startDate := str "Sep 2010",
    endDate := str "Jun 2012", details := [str "Thesis on parsing."] }

/-- A schema-valid, fully normalized CvDraft. -/
def sampleCv : CvDraft :=
  { header := { name := str "Jane Doe", title := str "Senior Software Engineer", photoUrl := none },
    personalDetails := { nationality := str "French", languages := [str "English"],
                         dob := str "Jan 1990", maritalStatus := str "Single" },
    profile := str "Responsible for delivery.",
    experience := [sampleExp],
    education := [sampleEdu],
    skills := [str "Java"],
    interests := [str "Chess"],
    audit := { rulesApplied := [str "date-format"], issues := [str "none noted"] } }

/-- C4: normalizing the profile text "I am responsible for leading teams."
yields exactly "Responsible for leading teams." — the redundant
first-person phrase is replaced and the result is still a capitalized,
period-closed sentence; this holds both for `normalizeProfileText` alone
and through `normalizeCvData`. -/
theorem c4_profile_phrase_removal :
    normalizeProfileText (str "I am responsible for leading teams.") =
      str "Responsible for leading teams." ∧
    (normalizeCvData { sampleCv with profile := str "I am responsible for leading teams." }).profile =
      str "Responsible for leading teams." := by
  constructor
  · decide
  · decide

/-- Pointwise-identity maps are the identity. -/
lemma map_self_of_mem {l : List α} {f : α → α} (h : ∀ a ∈ l, f a = a) : l.map f = l := by
  induction l with
  | nil => rfl
  | cons a l ih =>
    simp only [List.map_cons, h a (by simp)]
    rw [ih (fun a ha => h a (by simp [ha]))]

/-- A draft all of whose fields are fixed points of the field normalizers
is a fixed point of `normalizeCvData`. -/
lemma normalizeCvData_fixed (y : CvDraft)
    (hexp : ∀ e ∈ y.experience, normalizeDate e.startDate = e.startDate ∧
      normalizeDate e.endDate = e.endDate ∧ e.bullets.map normalizeBulletPoint = e.bullets)
    (hedu : ∀ e ∈ y.education, normalizeDate e.startDate = e.startDate ∧
      normalizeDate e.endDate = e.endDate ∧ e.details.map normalizeBulletPoint = e.details)
    (ht : normalizeJobTitle y.header.title = y.header.title)
    (hp : normalizeProfileText y.profile = y.profile) :
    normalizeCvData y = y := by
  cases y with
  | mk hd pd pr ex ed sk it au =>
    cases hd with
    | mk nm ti ph =>
      simp only at hexp hedu ht hp
      have h1 : (if ti = [] then ti else normalizeJobTitle ti) = ti := by
        split <;> simp [ht]
      have h2 : (if pr = [] then pr else normalizeProfileText pr) = pr := by
        split <;> simp [hp]
      have h3 : ex.map (fun e =>
          { e with startDate := normalizeDate e.startDate, endDate := normalizeDate e.endDate,
                   bullets := e.bullets.map normalizeBulletPoint }) = ex := by
        refine map_self_of_mem (fun e he => ?_)
        obtain ⟨g1, g2, g3⟩ := hexp e he
        cases e
        simp_all
      have h4 : ed.map (fun e =>
          { e with startDate := normalizeDate e.startDate, endDate := normalizeDate e.endDate,
                   details := e.details.map normalizeBulletPoint }) = ed := by
        refine map_self_of_mem (fun e he => ?_)
        obtain ⟨g1, g2, g3⟩ := hedu e he
        cases e
        simp_all
      rw [normalizeCvData_eq]
      simp only [h1, h2, h3, h4]

/-- C5 (amended): `normalizeCvData` is idempotent on every draft whose
once-normalized fields are fixed points of the field normalizers; in
general idempotence fails, because removing one occurrence of "I am " can
create a new occurrence (see the counterexample). -/
theorem c5_idempotence_amended (x : CvDraft)
    (hexp : ∀ e ∈ (normalizeCvData x).experience, normalizeDate e.startDate = e.startDate ∧
      normalizeDate e.endDate = e.endDate ∧ e.bullets.map normalizeBulletPoint = e.bullets)
    (hedu : ∀ e ∈ (normalizeCvData x).education, normalizeDate e.startDate = e.startDate ∧
      normalizeDate e.endDate = e.endDate ∧ e.details.map normalizeBulletPoint = e.details)
    (ht : normalizeJobTitle (normalizeCvData x).header.title = (normalizeCvData x).header.title)
    (hp : normalizeProfileText (normalizeCvData x).profile = (normalizeCvData x).profile) :
    normalizeCvData (normalizeCvData x) = normalizeCvData x :=
  normalizeCvData_fixed (normalizeCvData x) hexp hedu ht hp

/-- Witness for C5: the amended idempotence applied to a concrete draft. -/
theorem c5_idempotence_amended_witness :
    normalizeCvData (normalizeCvData sampleCv) = normalizeCvData sampleCv :=
  c5_idempotence_amended sampleCv (by decide) (by decide) (by decide) (by decide)

/-- Counterexample for C5: a schema-valid draft on which `normalizeCvData`
is not idempotent — stripping "I am " from the profile
"I I am am led delivery." yields "I am led delivery.", which a second pass
strips again. -/
theorem c5_idempotence_counterexample :
    validCvDraft (fun _ => true) { sampleCv with profile := str "I I am am led delivery." } = true ∧
    normalizeCvData (normalizeCvData { sampleCv with profile := str "I I am am led delivery." }) ≠
      normalizeCvData { sampleCv with profile := str "I I am am led delivery." } := by
  constructor
  · decide
  · decide

/-- The Schema Validator as a flat conjunction of conditions. -/
lemma validCvDraft_iff (urlOk : JStr → Bool) (d : CvDraft) :
    validCvDraft urlOk d = true ↔
      d.header.name ≠ [] ∧ d.header.title ≠ [] ∧
      (match d.header.photoUrl with | none => true | some u => urlOk u) = true ∧
      d.personalDetails.nationality ≠ [] ∧ d.personalDetails.languages ≠ [] ∧
      (∀ l ∈ d.personalDetails.languages, l ≠ []) ∧
      d.personalDetails.dob ≠ [] ∧ d.personalDetails.maritalStatus ≠ [] ∧
      d.profile ≠ [] ∧
      d.experience ≠ [] ∧
      (∀ e ∈ d.experience, e.role ≠ [] ∧ e.company ≠ [] ∧ e.startDate ≠ [] ∧
        e.endDate ≠ [] ∧ e.bullets ≠ [] ∧ ∀ b ∈ e.bullets, b ≠ []) ∧
      d.education ≠ [] ∧
      (∀ e ∈ d.education, e.degree ≠ [] ∧ e.institution ≠ [] ∧ e.startDate ≠ [] ∧
        e.endDate ≠ [] ∧ e.details ≠ [] ∧ ∀ x ∈ e.details, x ≠ []) ∧
      d.skills ≠ [] ∧ (∀ s ∈ d.skills, s ≠ []) ∧
      d.interests ≠ [] ∧ (∀ s ∈ d.interests, s ≠ []) ∧
      (∀ s ∈ d.audit.rulesApplied, s ≠ []) ∧ (∀ s ∈ d.audit.issues, s ≠ []) := by
  cases hph : d.header.photoUrl <;>
    simp [validCvDraft, validStr, validExpItem, validEduItem, Bool.and_eq_true,
      List.all_eq_true, and_assoc, hph]

/-- C6 (amended): `normalizeCvData` removes no field and preserves every
array length, and the normalized draft still passes the Schema Validator
provided the phrase-stripped profile, bullets and details stay non-empty;
in general validity is not preserved — a required string consisting only
of a redundant phrase is emptied (see the counterexample). -/
theorem c6_round_trip_amended (urlOk : JStr → Bool) (x : CvDraft)
    (hv : validCvDraft urlOk x = true)
    (hpr : normalizeProfileText x.profile ≠ [])
    (hbl : ∀ e ∈ x.experience, ∀ b ∈ e.bullets, normalizeBulletPoint b ≠ [])
    (hdt : ∀ e ∈ x.education, ∀ d ∈ e.details, normalizeBulletPoint d ≠ []) :
    validCvDraft urlOk (normalizeCvData x) = true := by
  cases x with
  | mk hd0 pd pr ex ed sk it au =>
  cases hd0 with
  | mk nm ti ph =>
  rw [normalizeCvData_eq]
  rw [validCvDraft_iff] at hv ⊢
  dsimp only at hv hpr hbl hdt ⊢
  obtain ⟨hnm, hti, hph, hnat, hlne, hlall, hdob, hms, hpro, hexne, hexall,
    hedne, hedall, hskne, hskall, hitne, hitall, hrules, hissues⟩ := hv
  refine ⟨hnm, ?_, hph, hnat, hlne, hlall, hdob, hms, ?_, ?_, ?_, ?_, ?_,
    hskne, hskall, hitne, hitall, hrules, hissues⟩
  · rw [if_neg hti]
    exact normalizeJobTitle_ne_nil hti
  · rw [if_neg hpro]
    exact hpr
  · simp [hexne]
  · intro e' he'
    obtain ⟨e, he, rfl⟩ := List.mem_map.mp he'
    obtain ⟨hrole, hcomp, hsd, hed, hbne, hball⟩ := hexall e he
    refine ⟨hrole, hcomp, normalizeDate_ne_nil hsd, normalizeDate_ne_nil hed, ?_, ?_⟩
    · simp [hbne]
    · intro b' hb'
      obtain ⟨b, hb, rfl⟩ := List.mem_map.mp hb'
      exact hbl e he b hb
  · simp [hedne]
  · intro e' he'
    obtain ⟨e, he, rfl⟩ := List.mem_map.mp he'
    obtain ⟨hdeg, hins, hsd, hed, hdne, hdall⟩ := hedall e he
    refine ⟨hdeg, hins, normalizeDate_ne_nil hsd, normalizeDate_ne_nil hed, ?_, ?_⟩
    · simp [hdne]
    · intro d' hd'
      obtain ⟨d, hd, rfl⟩ := List.mem_map.mp hd'
      exact hdt e he d hd

/-- Witness for C6: the amended round-trip on a concrete schema-valid
draft. -/
theorem c6_round_trip_amended_witness :
    validCvDraft (fun _ => true) (normalizeCvData sampleCv) = true :=
  c6_round_trip_amended (fun _ => true) sampleCv (by decide) (by decide) (by decide) (by decide)

/-- Counterexample for C6: a schema-valid draft whose only bullet is the
redundant phrase "I am "; normalization empties that required string, so
the normalized draft no longer passes the Schema Validator. -/
theorem c6_round_trip_counterexample :
    validCvDraft (fun _ => true)
      { sampleCv with experience := [{ sampleExp with bullets := [str "I am "] }] } = true ∧
    validCvDraft (fun _ => true)
      (normalizeCvData
        { sampleCv with experience := [{ sampleExp with bullets := [str "I am "] }] }) = false := by
  constructor
  · decide
  · decide

/-- C1: the PII-stripping claim fails on the code.  `cleanupPersonalDetails`
compares `key.toLowerCase()` against a denylist that stores `maritalStatus`
and `dateOfBirth` in camelCase, so those two keys are never matched and
survive; the all-lowercase entry `dob` is removed, which shows the removal
mechanism itself works; and no `audit.issues` entry is recorded anywhere
in the service. -/
theorem c1_pii_keys_survive :
    cleanupPersonalDetails
        [(str "maritalStatus", str "Married"), (str "dateOfBirth", str "1990-01-01")] =
      [(str "maritalStatus", str "Married"), (str "dateOfBirth", str "1990-01-01")] ∧
    objGet (cleanupPersonalDetails
        [(str "maritalStatus", str "Married"), (str "dateOfBirth", str "1990-01-01")])
        (str "maritalStatus") = some (str "Married") ∧
    cleanupPersonalDetails [(str "dob", str "1990-01-01")] = [] := by
  refine ⟨by decide, by decide, by decide⟩

/-- C2 (amended): "2020-01" and "January 2020" normalize to exactly
"Jan 2020", but "jan 2020" already matches the case-insensitive fast-path
`/^[A-Za-z]{3} \d{4}$/` and is returned unchanged; input in which no date
is recognizable (no parse, no dash-branch hit, no month-word hit) is
returned unchanged without an error, and no `audit.issues` entry is ever
recorded — `normalizeCvData` leaves the audit untouched. -/
theorem c2_date_normalization_amended :
    normalizeDate (str "2020-01") = str "Jan 2020" ∧
    normalizeDate (str "January 2020") = str "Jan 2020" ∧
    normalizeDate (str "jan 2020") = str "jan 2020" ∧
    (∀ s : JStr, jsNewDate s = none → dashResult s = none → monthWordResult s = none →
      normalizeDate s = s) ∧
    (∀ x : CvDraft, (normalizeCvData x).audit = x.audit) := by
  refine ⟨by decide, by decide, by decide, fun s h1 h2 h3 => ?_, fun x => ?_⟩
  · unfold normalizeDate
    rw [h1, h2, h3]
    split_ifs <;> rfl
  · rw [normalizeCvData_eq]

/-- Witness for C2: the unrecognizable-input clause applied to the
concrete strings "2020-13" and "no date here", and the audit clause to a
concrete draft. -/
theorem c2_date_normalization_amended_witness :
    normalizeDate (str "2020-13") = str "2020-13" ∧
    normalizeDate (str "no date here") = str "no date here" ∧
    (normalizeCvData sampleCv).audit = sampleCv.audit :=
  ⟨c2_date_normalization_amended.2.2.2.1 (str "2020-13") (by decide) (by decide) (by decide),
   c2_date_normalization_amended.2.2.2.1 (str "no date here") (by decide) (by decide) (by decide),
   c2_date_normalization_amended.2.2.2.2 sampleCv⟩

/-- Counterexample for C2: the recognizable input "jan 2020" is not mapped
to "Jan 2020" — the fast-path regex accepts the lowercase month and passes
it through. -/
theorem c2_date_normalization_counterexample :
    normalizeDate (str "jan 2020") ≠ str "Jan 2020" := by decide

/-- C7: for every CV record, the compliance check reports
`score = max(0, 100 − 10 × number of detected issues)` (so the score
floors at 0) and `compliant = true` exactly when the detected-issue list
is empty — two independent facts, no threshold involved. -/
theorem c7_compliance_scoring (cv : EHSCv) :
    (validateEHSCompliance cv).score =
      max 0 (100 - ((validateEHSCompliance cv).issues.length : Int) * 10) ∧
    0 ≤ (validateEHSCompliance cv).score ∧
    ((validateEHSCompliance cv).compliant = true ↔ (validateEHSCompliance cv).issues = []) := by
  refine ⟨rfl, le_max_left _ _, ?_⟩
  simp [validateEHSCompliance, List.isEmpty_iff]

/-- C10: `applyEHSFormatting` never returns a formatted record — the
`const formattedCV` binding of line 60 is reassigned on line 74, the
cleanup steps before it are total, so every call throws a TypeError and no
caller ever receives a result. -/
theorem c10_applyEHSFormatting_always_throws (cv : EHSCv) :
    applyEHSFormatting cv = Except.error JsError.typeError ∧
    ∀ r : EHSCv, applyEHSFormatting cv ≠ Except.ok r := by
  refine ⟨rfl, fun r h => ?_⟩
  rw [show applyEHSFormatting cv = Except.error JsError.typeError from rfl] at h
  exact Except.noConfusion h

/-!
### Dedup refinement and the C8 merge claim
-/

lemma dedupBy_eq_aux (key : α → JStr) (xs : List α) : ∀ seen : List JStr,
    dedupBy key seen xs =
      firstOccBy key (xs.filter (fun x => !(seen.contains (key x)))) := by
  induction xs with
  | nil => intro seen; simp [dedupBy, firstOccBy]
  | cons x xs ih =>
    intro seen
    by_cases hc : seen.contains (key x) = true
    · have hmem : key x ∈ seen := by simpa using hc
      have hL : dedupBy key seen (x :: xs) = dedupBy key seen xs := by
        simp only [dedupBy]
        rw [if_pos hc]
      rw [hL, List.filter_cons_of_neg (by simp [hmem]), ih seen]
    · have hnmem : key x ∉ seen := by simpa using hc
      have hL : dedupBy key seen (x :: xs) = x :: dedupBy key (key x :: seen) xs := by
        simp only [dedupBy]
        rw [if_neg hc]
      rw [hL, List.filter_cons_of_pos (by simp [hnmem]), ih (key x :: seen)]
      conv_rhs => rw [firstOccBy]
      refine congrArg (fun l => x :: l) (congrArg (firstOccBy key) ?_)
      rw [List.filter_filter]
      refine List.filter_congr (fun y _ => ?_)
      by_cases hk : key y = key x
      · simp [hk, List.contains_cons, Bool.not_or, Bool.and_comm]
      · have hb : (key y == key x) = false := by simpa using hk
        simp [hk, hb, List.contains_cons, Bool.not_or, Bool.and_comm]

/-- The `seen`-set loop computes exactly the spec's first-occurrence-wins
deduplication. -/
lemma dedupBy_eq_firstOccBy (key : α → JStr) (xs : List α) :
    dedupBy key [] xs = firstOccBy key xs := by
  have h := dedupBy_eq_aux key xs []
  simpa using h

/-- C8 (amended): for two or more chunk results, the merged experience
(resp. education) list is exactly the stable reverse-chronological sort of
the first-occurrence-wins deduplication by composite key
company-role-startDate (resp. institution-degree-startDate) of the
concatenated per-chunk lists: it is a permutation of the first
occurrences and it is sorted by non-increasing parsed start date (an
unparseable date counting as epoch 0).  A single-chunk list, by contrast,
is returned unchanged, without deduplication or sorting (see the
counterexample). -/
theorem c8_merge_dedup_sort (base next : CvDraft) (rest : List CvDraft) :
    ∃ m, mergeChunkResults (base :: next :: rest) = Except.ok m ∧
      m.experience =
        List.insertionSort expLe
          (firstOccBy expKey (((base :: next :: rest).map (·.experience)).flatten)) ∧
      m.experience.Perm
        (firstOccBy expKey (((base :: next :: rest).map (·.experience)).flatten)) ∧
      List.Sorted expLe m.experience ∧
      m.education =
        List.insertionSort eduLe
          (firstOccBy eduKey (((base :: next :: rest).map (·.education)).flatten)) ∧
      m.education.Perm
        (firstOccBy eduKey (((base :: next :: rest).map (·.education)).flatten)) ∧
      List.Sorted eduLe m.education := by
  refine ⟨_, rfl, ?_, ?_, ?_, ?_, ?_, ?_⟩
  · show deduplicateAndMergeExperience _ = _
    unfold deduplicateAndMergeExperience
    rw [dedupBy_eq_firstOccBy]
  · show (deduplicateAndMergeExperience _).Perm _
    unfold deduplicateAndMergeExperience
    rw [dedupBy_eq_firstOccBy]
    exact List.perm_insertionSort expLe _
  · show List.Sorted expLe (deduplicateAndMergeExperience _)
    exact List.sorted_insertionSort expLe _
  · show deduplicateAndMergeEducation _ = _
    unfold deduplicateAndMergeEducation
    rw [dedupBy_eq_firstOccBy]
  · show (deduplicateAndMergeEducation _).Perm _
    unfold deduplicateAndMergeEducation
    rw [dedupBy_eq_firstOccBy]
    exact List.perm_insertionSort eduLe _
  · show List.Sorted eduLe (deduplicateAndMergeEducation _)
    exact List.sorted_insertionSort eduLe _

/-- Counterexample for C8: a one-element chunk list whose single draft
carries two experience entries with the same composite key.
`mergeChunkResults` returns it unchanged — the duplicate key survives, so
the merged list does not consist of first occurrences only. -/
theorem c8_merge_counterexample :
    mergeChunkResults [{ sampleCv with experience := [sampleExp, sampleExp] }] =
      Except.ok { sampleCv with experience := [sampleExp, sampleExp] } ∧
    ¬ (({ sampleCv with experience := [sampleExp, sampleExp] } : CvDraft).experience.map
        expKey).Nodup := by
  constructor
  · rfl
  · decide

/-!
### The C9 provider-fallback claim
-/

lemma pscGo_first_success (attempt : JStr → Except JStr CvDraft) (r : CvDraft) :
    ∀ (pre : List JStr) (p : JStr) (post : List JStr),
      (∀ q ∈ pre, ∃ e, attempt q = .error e) → attempt p = .ok r →
      ∀ le : Option JStr, processSingleChunkGo attempt (pre ++ p :: post) le = .ok r := by
  intro pre
  induction pre with
  | nil =>
    intro p post _ hok le
    simp [processSingleChunkGo, hok]
  | cons q qs ih =>
    intro p post hpre hok le
    obtain ⟨e, he⟩ := hpre q (by simp)
    simp only [List.cons_append, processSingleChunkGo, he]
    exact ih p post (fun q' hq' => hpre q' (by simp [hq'])) hok (some e)

lemma pscGo_all_fail (attempt : JStr → Except JStr CvDraft) :
    ∀ (qs : List JStr) (lastp : JStr), qs.getLast? = some lastp →
      (∀ q ∈ qs, ∃ e, attempt q = .error e) →
      ∀ le : Option JStr, ∃ e, attempt lastp = .error e ∧
        processSingleChunkGo attempt qs le =
          .error (str "All AI providers failed. Last error: " ++ e) := by
  intro qs
  induction qs with
  | nil => intro lastp h; exact absurd h (by simp)
  | cons q qs ih =>
    intro lastp hlast hfail le
    obtain ⟨e, he⟩ := hfail q (by simp)
    cases qs with
    | nil =>
      obtain rfl : q = lastp := by simpa using hlast
      refine ⟨e, he, ?_⟩
      simp [processSingleChunkGo, he]
    | cons q2 qs2 =>
      have hlast2 : (q2 :: qs2).getLast? = some lastp := by
        simpa [List.getLast?_cons_cons] using hlast
      obtain ⟨e2, he2, hgo⟩ := ih lastp hlast2 (fun x hx => hfail x (by simp [hx])) (some e)
      refine ⟨e2, he2, ?_⟩
      simp only [processSingleChunkGo, he]
      exact hgo

/-- C9: the structuring orchestration returns the result of the earliest
provider whose attempt succeeds — every earlier failure is absorbed and
does not prevent trying the next provider — and when every provider of a
non-empty list fails, it throws an error carrying the last provider's
failure message. -/
theorem c9_provider_fallback (attempt : JStr → Except JStr CvDraft)
    (pre post : List JStr) (p : JStr) (r : CvDraft) (qs : List JStr) (lastp : JStr)
    (hpre : ∀ q ∈ pre, ∃ e, attempt q = .error e)
    (hok : attempt p = .ok r)
    (hlast : qs.getLast? = some lastp)
    (hfail : ∀ q ∈ qs, ∃ e, attempt q = .error e) :
    processSingleChunk attempt (pre ++ p :: post) = .ok r ∧
    ∃ e, attempt lastp = .error e ∧
      processSingleChunk attempt qs =
        .error (str "All AI providers failed. Last error: " ++ e) := by
  constructor
  · exact pscGo_first_success attempt r pre p post hpre hok none
  · exact pscGo_all_fail attempt qs lastp hlast hfail none

/-- A concrete provider oracle for the C9 witness: only "beta" succeeds. -/
def c9attempt (p : JStr) : Except JStr CvDraft :=
  if p == str "beta" then .ok sampleCv else .error (str "quota exceeded")

/-- Witness for C9: with providers [alpha, beta, gamma], alpha's failure
is absorbed and beta's result is returned; with [alpha, gamma] every
provider fails and the error carries the last provider's message. -/
theorem c9_provider_fallback_witness :
    processSingleChunk c9attempt [str "alpha", str "beta", str "gamma"] = .ok sampleCv ∧
    processSingleChunk c9attempt [str "alpha", str "gamma"] =
      .error (str "All AI providers failed. Last error: quota exceeded") := by
  obtain ⟨h1, e, he, h2⟩ := c9_provider_fallback c9attempt [str "alpha"] [str "gamma"]
    (str "beta") sampleCv [str "alpha", str "gamma"] (str "gamma")
    (by intro q hq; refine ⟨str "quota exceeded", ?_⟩; fin_cases hq; rfl)
    rfl (by decide)
    (by intro q hq; refine ⟨str "quota exceeded", ?_⟩; fin_cases hq <;> rfl)
  refine ⟨h1, ?_⟩
  rw [show c9attempt (str "gamma") = .error (str "quota exceeded") from rfl] at he
  obtain rfl : str "quota exceeded" = e := Except.error.inj he
  rw [h2]
  rfl

end CvF
